import Mathlib

/-!
Verification of the settings-dialog component of CloudNav
(src/components/SettingsModal.tsx): the configuration draft store,
the sequential bulk-generation loop with cooperative stop, and the
save / cancel paths.  The external collaborator
generateLinkDescription is modelled as an oracle parameter; a result
of none models the call throwing.
-/

namespace CloudNav

/-- Configuration value edited by the dialog.  The field list follows the
shape the component reads (localConfig.provider, .apiKey, .baseUrl, .model);
the types file itself is not part of the sources, so fields are opaque
strings as the spec states. -/
structure AIConfig where
  provider : String
  apiKey : String
  baseUrl : String
  model : String
deriving DecidableEq, Repr

/-- A link item: id, title, url and an optional description.  The component
reads exactly these fields (link.id, link.title, link.url, l.description). -/
structure LinkItem where
  id : Nat
  title : String
  url : String
  description : Option String
deriving DecidableEq, Repr

/-- JavaScript truthiness test applied by the source's filter
(l => !l.description): true when the description is absent or empty. -/
def descFalsy (l : LinkItem) : Bool :=
  match l.description with
  | none => true
  | some s => s == ""

/-- Target-set computation of handleBulkGenerate:
links.filter(l => !l.description). -/
def missingLinks (links : List LinkItem) : List LinkItem :=
  links.filter (fun l => descFalsy l)

/-- Oracle for the external collaborator generateLinkDescription:
arguments (title, url, config); a none result models the call throwing. -/
abbrev Gen : Type := String → String → AIConfig → Option String

/-- The success branch's update of the working copy:
currentLinks.map(l => l.id === link.id ? \x7b ...l, description: desc \x7d : l). -/
def applyDesc (ls : List LinkItem) (tid : Nat) (d : String) : List LinkItem :=
  ls.map (fun l => if l.id = tid then { l with description := some d } else l)

/-- Observable state of one bulk run: the working copy, the progress pair,
the trace of onUpdateLinks publishes (each paired with the progress.current
value set right after it), and the trace of generation calls made. -/
structure RunState where
  currentLinks : List LinkItem
  progress : Nat × Nat
  published : List (List LinkItem × Nat)
  calls : List (String × String × AIConfig)
deriving DecidableEq, Repr

/-- Whether the stop flag is set at the top-of-loop check of iteration i.
stopAt = some s means the first check that observes the flag is check s
(the flag, once raised, stays raised for the rest of the run). -/
def stopObserved (stopAt : Option Nat) (i : Nat) : Bool :=
  match stopAt with
  | none => false
  | some s => decide (s ≤ i)

/-- The argument triple of one generation call. -/
def mkCall (cfg : AIConfig) (l : LinkItem) : String × String × AIConfig :=
  (l.title, l.url, cfg)

/-- The sequential loop of handleBulkGenerate over the target snapshot.
Each iteration i: observe the stop flag and break if set; otherwise call the
generator; on success map the working copy through the id-matching update,
publish the new copy, and set progress to (i+1, total); on failure only log
and continue.  total is the target-set size fixed at batch start. -/
def bulkLoop (gen : Gen) (cfg : AIConfig) (stopAt : Option Nat) (total : Nat) :
    List LinkItem → Nat → RunState → RunState
  | [], _, st => st
  | l :: rest, i, st =>
    if stopObserved stopAt i then st
    else
      match gen l.title l.url cfg with
      | some d =>
        bulkLoop gen cfg stopAt total rest (i + 1)
          { currentLinks := applyDesc st.currentLinks l.id d
            progress := (i + 1, total)
            published := st.published ++ [(applyDesc st.currentLinks l.id d, i + 1)]
            calls := st.calls ++ [mkCall cfg l] }
      | none =>
        bulkLoop gen cfg stopAt total rest (i + 1)
          { st with calls := st.calls ++ [mkCall cfg l] }

/-- The two alert notices handleBulkGenerate can raise before starting. -/
inductive Notice where
  | missingApiKey
  | noMissingDescriptions
deriving DecidableEq, Repr

/-- Outcome of invoking handleBulkGenerate: the notice raised (if any),
whether the batch actually started, and the run trace. -/
structure BulkResult where
  notice : Option Notice
  started : Bool
  run : RunState
deriving DecidableEq, Repr

/-- Run trace of a batch that never started: untouched working copy,
progress as reset on open, no publishes, no calls. -/
def initRun (links : List LinkItem) : RunState :=
  { currentLinks := links, progress := (0, 0), published := [], calls := [] }

/-- handleBulkGenerate: reject without a key in the local draft; reject when
no link lacks a description; ask for confirmation; otherwise set progress to
(0, total), seed the working copy from the current link list and run the
loop over the missing-description snapshot in order. -/
def handleBulkGenerate (gen : Gen) (localConfig : AIConfig) (links : List LinkItem)
    (confirmed : Bool) (stopAt : Option Nat) : BulkResult :=
  if localConfig.apiKey == "" then
    { notice := some .missingApiKey, started := false, run := initRun links }
  else if (missingLinks links).isEmpty then
    { notice := some .noMissingDescriptions, started := false, run := initRun links }
  else if !confirmed then
    { notice := none, started := false, run := initRun links }
  else
    { notice := none, started := true,
      run := bulkLoop gen localConfig stopAt (missingLinks links).length
        (missingLinks links) 0
        { currentLinks := links, progress := (0, (missingLinks links).length),
          published := [], calls := [] } }

/-- Component-local state of the dialog: the config draft, the processing
flag, the progress pair and the stop flag. -/
structure ModalState where
  localConfig : AIConfig
  isProcessing : Bool
  progress : Nat × Nat
  shouldStop : Bool
deriving DecidableEq, Repr

/-- The open effect (useEffect on isOpen): re-initialize the draft from the
owner's config, clear the processing flag, reset progress, clear the stop
flag. -/
def openModal (ownerConfig : AIConfig) (s : ModalState) : ModalState :=
  { s with localConfig := ownerConfig, isProcessing := false,
           progress := (0, 0), shouldStop := false }

/-- handleStop: raise the stop flag and clear the processing flag at once. -/
def handleStop (s : ModalState) : ModalState :=
  { s with shouldStop := true, isProcessing := false }

/-- The field names of AIConfig (keyof AIConfig as the setter uses it). -/
inductive ConfigKey where
  | provider
  | apiKey
  | baseUrl
  | model
deriving DecidableEq, Repr

/-- handleChange: replace the single named field of the draft
(prev => (\x7b ...prev, [key]: value \x7d)). -/
def handleChange (k : ConfigKey) (v : String) (c : AIConfig) : AIConfig :=
  match k with
  | .provider => { c with provider := v }
  | .apiKey => { c with apiKey := v }
  | .baseUrl => { c with baseUrl := v }
  | .model => { c with model := v }

/-- Read one named field of a config value. -/
def getField (k : ConfigKey) (c : AIConfig) : String :=
  match k with
  | .provider => c.provider
  | .apiKey => c.apiKey
  | .baseUrl => c.baseUrl
  | .model => c.model

/-- Calls the dialog makes back into its owner during save / cancel. -/
structure SaveEffects where
  savedConfigs : List AIConfig
  closed : Bool
  updates : List (List LinkItem)
deriving DecidableEq, Repr

/-- handleSave: onSave(localConfig) once, then onClose. -/
def handleSave (s : ModalState) : SaveEffects :=
  { savedConfigs := [s.localConfig], closed := true, updates := [] }

/-- The cancel path: onClose only; neither onSave nor onUpdateLinks runs. -/
def handleCancel : SaveEffects :=
  { savedConfigs := [], closed := true, updates := [] }

/-- The draft in effect after opening the dialog against the owner's config
and applying a sequence of field edits, with save never pressed. -/
def draftAfter (ownerConfig : AIConfig) (s : ModalState)
    (edits : List (ConfigKey × String)) : AIConfig :=
  edits.foldl (fun c kv => handleChange kv.1 kv.2 c) (openModal ownerConfig s).localConfig

/-! Derived characterizations of the loop, used by the theorems. -/

/-- Number of loop iterations that run when the first check observing the
stop flag is check s (none: all of them), starting from iteration i. -/
def attemptedCount (stopAt : Option Nat) (i : Nat) (len : Nat) : Nat :=
  match stopAt with
  | none => len
  | some s => min (s - i) len

/-- The value progress.current holds after the loop: set to i+1 at each
successful iteration i, left unchanged at a failed one. -/
def progressCurAux (gen : Gen) (cfg : AIConfig) : List LinkItem → Nat → Nat → Nat
  | [], _, acc => acc
  | l :: rest, i, acc =>
    match gen l.title l.url cfg with
    | some _ => progressCurAux gen cfg rest (i + 1) (i + 1)
    | none => progressCurAux gen cfg rest (i + 1) acc

/-- The publish trace the loop produces over a target list: one entry per
successful attempt, in target order, each carrying the working copy right
after that item's update and the progress value i+1 set with it. -/
def pubTrace (gen : Gen) (cfg : AIConfig) :
    List LinkItem → Nat → List LinkItem → List (List LinkItem × Nat)
  | [], _, _ => []
  | l :: rest, i, cur =>
    match gen l.title l.url cfg with
    | some d =>
      (applyDesc cur l.id d, i + 1) :: pubTrace gen cfg rest (i + 1) (applyDesc cur l.id d)
    | none => pubTrace gen cfg rest (i + 1) cur

/-- The working copy after folding the loop's per-item updates over a
target list. -/
def applyResults (gen : Gen) (cfg : AIConfig) (targets : List LinkItem)
    (cur : List LinkItem) : List LinkItem :=
  targets.foldl (fun acc t =>
    match gen t.title t.url cfg with
    | some d => applyDesc acc t.id d
    | none => acc) cur

/-- The effect of one target on one item of the working copy: a successful
generation for a target with matching id sets the description, anything
else leaves the item alone. -/
def descStep (gen : Gen) (cfg : AIConfig) (acc : LinkItem) (t : LinkItem) : LinkItem :=
  match gen t.title t.url cfg with
  | some d => if acc.id = t.id then { acc with description := some d } else acc
  | none => acc

/-- The final value of one item of the working copy after a whole run over
a target list. -/
def finalItem (gen : Gen) (cfg : AIConfig) (targets : List LinkItem) (l : LinkItem) : LinkItem :=
  targets.foldl (descStep gen cfg) l

/-- Identity-relevant projection of a link list: ids, titles and urls in
order (everything but the descriptions). -/
def keyMap (ls : List LinkItem) : List (Nat × String × String) :=
  ls.map (fun l => (l.id, l.title, l.url))

/-! Concrete instances used by counterexamples and witnesses. -/

/-- Example link A, lacking a description. -/
def linkA : LinkItem := { id := 0, title := "A", url := "a", description := none }

/-- Example link B, lacking a description. -/
def linkB : LinkItem := { id := 1, title := "B", url := "b", description := none }

/-- Example config with a non-empty key. -/
def cfgEx : AIConfig := { provider := "gemini", apiKey := "k", baseUrl := "", model := "m" }

/-- Example config with an empty key. -/
def cfgNoKey : AIConfig := { provider := "gemini", apiKey := "", baseUrl := "", model := "m" }

/-- Example oracle: generation succeeds for title A and throws for any
other title. -/
def genEx : Gen := fun t _ _ => if t == "A" then some "descA" else none

/-- Example oracle that succeeds everywhere. -/
def genAll : Gen := fun t _ _ => some (t ++ "!")

/-- Example modal state before open. -/
def stEx : ModalState :=
  { localConfig := cfgNoKey, isProcessing := false, progress := (0, 0), shouldStop := false }

/-! Characterization lemmas for the loop. -/

theorem stopObserved_none (i : Nat) : stopObserved none i = false := rfl

theorem bulkLoop_cons_stop (gen : Gen) (cfg : AIConfig) (stopAt : Option Nat) (total : Nat)
    (l : LinkItem) (rest : List LinkItem) (i : Nat) (st : RunState)
    (h : stopObserved stopAt i = true) :
    bulkLoop gen cfg stopAt total (l :: rest) i st = st := by
  simp [bulkLoop, h]

theorem bulkLoop_cons_some (gen : Gen) (cfg : AIConfig) (stopAt : Option Nat) (total : Nat)
    (l : LinkItem) (rest : List LinkItem) (i : Nat) (st : RunState) (d : String)
    (h : stopObserved stopAt i = false) (hg : gen l.title l.url cfg = some d) :
    bulkLoop gen cfg stopAt total (l :: rest) i st =
      bulkLoop gen cfg stopAt total rest (i + 1)
        { currentLinks := applyDesc st.currentLinks l.id d
          progress := (i + 1, total)
          published := st.published ++ [(applyDesc st.currentLinks l.id d, i + 1)]
          calls := st.calls ++ [mkCall cfg l] } := by
  simp [bulkLoop, h, hg]

theorem bulkLoop_cons_fail (gen : Gen) (cfg : AIConfig) (stopAt : Option Nat) (total : Nat)
    (l : LinkItem) (rest : List LinkItem) (i : Nat) (st : RunState)
    (h : stopObserved stopAt i = false) (hg : gen l.title l.url cfg = none) :
    bulkLoop gen cfg stopAt total (l :: rest) i st =
      bulkLoop gen cfg stopAt total rest (i + 1)
        { st with calls := st.calls ++ [mkCall cfg l] } := by
  simp [bulkLoop, h, hg]

theorem bulkLoop_stop_take (gen : Gen) (cfg : AIConfig) (stopAt : Option Nat) (total : Nat) :
    ∀ (ts : List LinkItem) (i : Nat) (st : RunState),
    bulkLoop gen cfg stopAt total ts i st =
      bulkLoop gen cfg none total (ts.take (attemptedCount stopAt i ts.length)) i st := by
  intro ts
  induction ts with
  | nil => intro i st; simp [attemptedCount, bulkLoop]
  | cons l rest ih =>
    intro i st
    cases stopAt with
    | none => simp [attemptedCount]
    | some s =>
      by_cases hs : s ≤ i
      · have hobs : stopObserved (some s) i = true := by
          simp [stopObserved, hs]
        have hc : attemptedCount (some s) i (l :: rest).length = 0 := by
          simp only [attemptedCount]
          omega
        rw [hc]
        simp [bulkLoop, hobs]
      · have hobs : stopObserved (some s) i = false := by
          simp [stopObserved]
          omega
        have hc : attemptedCount (some s) i (l :: rest).length
            = attemptedCount (some s) (i + 1) rest.length + 1 := by
          simp only [attemptedCount, List.length_cons]
          omega
        rw [hc, List.take_succ_cons]
        cases hg : gen l.title l.url cfg with
        | some d =>
          rw [bulkLoop_cons_some gen cfg (some s) total l rest i st d hobs hg,
            bulkLoop_cons_some gen cfg none total l _ i st d (stopObserved_none i) hg]
          exact ih (i + 1) _
        | none =>
          rw [bulkLoop_cons_fail gen cfg (some s) total l rest i st hobs hg,
            bulkLoop_cons_fail gen cfg none total l _ i st (stopObserved_none i) hg]
          exact ih (i + 1) _

theorem bulkLoop_none_calls (gen : Gen) (cfg : AIConfig) (total : Nat) :
    ∀ (ts : List LinkItem) (i : Nat) (st : RunState),
    (bulkLoop gen cfg none total ts i st).calls = st.calls ++ ts.map (mkCall cfg) := by
  intro ts
  induction ts with
  | nil => intro i st; simp [bulkLoop]
  | cons l rest ih =>
    intro i st
    cases hg : gen l.title l.url cfg with
    | some d =>
      rw [bulkLoop_cons_some gen cfg none total l rest i st d (stopObserved_none i) hg, ih]
      simp
    | none =>
      rw [bulkLoop_cons_fail gen cfg none total l rest i st (stopObserved_none i) hg, ih]
      simp

theorem bulkLoop_none_published (gen : Gen) (cfg : AIConfig) (total : Nat) :
    ∀ (ts : List LinkItem) (i : Nat) (st : RunState),
    (bulkLoop gen cfg none total ts i st).published
      = st.published ++ pubTrace gen cfg ts i st.currentLinks := by
  intro ts
  induction ts with
  | nil => intro i st; simp [bulkLoop, pubTrace]
  | cons l rest ih =>
    intro i st
    cases hg : gen l.title l.url cfg with
    | some d =>
      rw [bulkLoop_cons_some gen cfg none total l rest i st d (stopObserved_none i) hg, ih]
      simp [pubTrace, hg]
    | none =>
      rw [bulkLoop_cons_fail gen cfg none total l rest i st (stopObserved_none i) hg, ih]
      simp [pubTrace, hg]

theorem bulkLoop_none_currentLinks (gen : Gen) (cfg : AIConfig) (total : Nat) :
    ∀ (ts : List LinkItem) (i : Nat) (st : RunState),
    (bulkLoop gen cfg none total ts i st).currentLinks
      = applyResults gen cfg ts st.currentLinks := by
  intro ts
  induction ts with
  | nil => intro i st; simp [bulkLoop, applyResults]
  | cons l rest ih =>
    intro i st
    cases hg : gen l.title l.url cfg with
    | some d =>
      rw [bulkLoop_cons_some gen cfg none total l rest i st d (stopObserved_none i) hg, ih]
      simp [applyResults, hg]
    | none =>
      rw [bulkLoop_cons_fail gen cfg none total l rest i st (stopObserved_none i) hg, ih]
      simp [applyResults, hg]

theorem bulkLoop_none_progress (gen : Gen) (cfg : AIConfig) (total : Nat) :
    ∀ (ts : List LinkItem) (i : Nat) (st : RunState) (c : Nat),
    st.progress = (c, total) →
    (bulkLoop gen cfg none total ts i st).progress
      = (progressCurAux gen cfg ts i c, total) := by
  intro ts
  induction ts with
  | nil => intro i st c h; simp [bulkLoop, progressCurAux, h]
  | cons l rest ih =>
    intro i st c h
    cases hg : gen l.title l.url cfg with
    | some d =>
      rw [bulkLoop_cons_some gen cfg none total l rest i st d (stopObserved_none i) hg,
        ih _ _ (i + 1) rfl]
      simp [progressCurAux, hg]
    | none =>
      rw [bulkLoop_cons_fail gen cfg none total l rest i st (stopObserved_none i) hg]
      have hrec := ih (i + 1) { st with calls := st.calls ++ [mkCall cfg l] } c (by simp [h])
      rw [hrec]
      simp [progressCurAux, hg]

theorem finalItem_cons (gen : Gen) (cfg : AIConfig) (t : LinkItem) (ts : List LinkItem)
    (l : LinkItem) :
    finalItem gen cfg (t :: ts) l = finalItem gen cfg ts (descStep gen cfg l t) := rfl

theorem descStep_id (gen : Gen) (cfg : AIConfig) (acc t : LinkItem) :
    (descStep gen cfg acc t).id = acc.id := by
  unfold descStep
  cases gen t.title t.url cfg with
  | some d =>
    by_cases h : acc.id = t.id
    · simp [h]
    · simp [h]
  | none => rfl

theorem finalItem_of_forall_ne (gen : Gen) (cfg : AIConfig) :
    ∀ (ts : List LinkItem) (l : LinkItem), (∀ t ∈ ts, l.id ≠ t.id) →
    finalItem gen cfg ts l = l := by
  intro ts
  induction ts with
  | nil => intro l _; rfl
  | cons t rest ih =>
    intro l h
    have hstep : descStep gen cfg l t = l := by
      unfold descStep
      cases gen t.title t.url cfg with
      | some d => simp [h t (List.mem_cons_self t rest)]
      | none => rfl
    rw [finalItem_cons, hstep]
    exact ih l (fun u hu => h u (List.mem_cons_of_mem t hu))

theorem finalItem_mem (gen : Gen) (cfg : AIConfig) :
    ∀ (ts : List LinkItem), (ts.map LinkItem.id).Nodup →
    ∀ t ∈ ts, finalItem gen cfg ts t =
      (match gen t.title t.url cfg with
       | some d => { t with description := some d }
       | none => t) := by
  intro ts
  induction ts with
  | nil => intro _ t ht; cases ht
  | cons u rest ih =>
    intro hnd t ht
    rw [List.map_cons, List.nodup_cons] at hnd
    obtain ⟨hu, hrest⟩ := hnd
    rcases List.mem_cons.mp ht with rfl | htr
    · rw [finalItem_cons]
      cases hg : gen t.title t.url cfg with
      | some d =>
        have hstep : descStep gen cfg t t = { t with description := some d } := by
          unfold descStep
          rw [hg]
          simp
        rw [hstep]
        exact finalItem_of_forall_ne gen cfg rest _
          (fun v hv he => hu (he ▸ List.mem_map_of_mem LinkItem.id hv))
      | none =>
        have hstep : descStep gen cfg t t = t := by
          unfold descStep
          rw [hg]
        rw [hstep]
        exact finalItem_of_forall_ne gen cfg rest t
          (fun v hv he => hu (he ▸ List.mem_map_of_mem LinkItem.id hv))
    · have hne : t.id ≠ u.id := by
        intro he
        exact hu (he ▸ List.mem_map_of_mem LinkItem.id htr)
      have hstep : descStep gen cfg t u = t := by
        unfold descStep
        cases gen u.title u.url cfg with
        | some d => simp [hne]
        | none => rfl
      rw [finalItem_cons, hstep]
      exact ih hrest t htr

theorem applyResults_map (gen : Gen) (cfg : AIConfig) :
    ∀ (ts cur : List LinkItem),
    applyResults gen cfg ts cur = cur.map (finalItem gen cfg ts) := by
  intro ts
  induction ts with
  | nil =>
    intro cur
    have h : finalItem gen cfg [] = fun l => l := by
      funext l
      rfl
    simp [applyResults, h]
  | cons t rest ih =>
    intro cur
    cases hg : gen t.title t.url cfg with
    | some d =>
      have h1 : applyResults gen cfg (t :: rest) cur
          = applyResults gen cfg rest (applyDesc cur t.id d) := by
        simp [applyResults, hg]
      rw [h1, ih, applyDesc, List.map_map]
      congr 1
      funext l
      simp only [Function.comp_apply, finalItem_cons]
      have hstep : descStep gen cfg l t
          = if l.id = t.id then { l with description := some d } else l := by
        unfold descStep
        rw [hg]
      rw [hstep]
    | none =>
      have h1 : applyResults gen cfg (t :: rest) cur = applyResults gen cfg rest cur := by
        simp [applyResults, hg]
      rw [h1, ih]
      congr 1
      funext l
      rw [finalItem_cons]
      have hstep : descStep gen cfg l t = l := by
        unfold descStep
        rw [hg]
      rw [hstep]

theorem applyDesc_keyMap (ls : List LinkItem) (tid : Nat) (d : String) :
    keyMap (applyDesc ls tid d) = keyMap ls := by
  unfold keyMap applyDesc
  rw [List.map_map]
  congr 1
  funext l
  by_cases h : l.id = tid <;> simp [h]

theorem pubTrace_cons_some (gen : Gen) (cfg : AIConfig) (t : LinkItem) (rest : List LinkItem)
    (i : Nat) (cur : List LinkItem) (d : String) (hg : gen t.title t.url cfg = some d) :
    pubTrace gen cfg (t :: rest) i cur
      = (applyDesc cur t.id d, i + 1) :: pubTrace gen cfg rest (i + 1) (applyDesc cur t.id d) := by
  simp [pubTrace, hg]

theorem pubTrace_cons_fail (gen : Gen) (cfg : AIConfig) (t : LinkItem) (rest : List LinkItem)
    (i : Nat) (cur : List LinkItem) (hg : gen t.title t.url cfg = none) :
    pubTrace gen cfg (t :: rest) i cur = pubTrace gen cfg rest (i + 1) cur := by
  simp [pubTrace, hg]

theorem pubTrace_keyMap (gen : Gen) (cfg : AIConfig) :
    ∀ (ts : List LinkItem) (i : Nat) (cur : List LinkItem),
    ∀ p ∈ pubTrace gen cfg ts i cur, keyMap p.1 = keyMap cur := by
  intro ts
  induction ts with
  | nil => intro i cur p hp; simp [pubTrace] at hp
  | cons t rest ih =>
    intro i cur p hp
    cases hg : gen t.title t.url cfg with
    | some d =>
      rw [pubTrace_cons_some gen cfg t rest i cur d hg] at hp
      rcases List.mem_cons.mp hp with rfl | hmem
      · exact applyDesc_keyMap cur t.id d
      · exact (ih (i + 1) _ p hmem).trans (applyDesc_keyMap cur t.id d)
    | none =>
      rw [pubTrace_cons_fail gen cfg t rest i cur hg] at hp
      exact ih (i + 1) cur p hp

theorem pubTrace_length (gen : Gen) (cfg : AIConfig) :
    ∀ (ts : List LinkItem) (i : Nat) (cur : List LinkItem),
    (pubTrace gen cfg ts i cur).length
      = ts.countP (fun l => (gen l.title l.url cfg).isSome) := by
  intro ts
  induction ts with
  | nil => intro i cur; simp [pubTrace]
  | cons t rest ih =>
    intro i cur
    cases hg : gen t.title t.url cfg with
    | some d =>
      rw [pubTrace_cons_some gen cfg t rest i cur d hg]
      simp [List.countP_cons, hg, ih]
    | none =>
      rw [pubTrace_cons_fail gen cfg t rest i cur hg]
      simp [List.countP_cons, hg, ih]

theorem pubTrace_snd_allSuccess (gen : Gen) (cfg : AIConfig) :
    ∀ (ts : List LinkItem) (i : Nat) (cur : List LinkItem),
    (∀ l ∈ ts, (gen l.title l.url cfg).isSome = true) →
    (pubTrace gen cfg ts i cur).map Prod.snd = List.range' (i + 1) ts.length := by
  intro ts
  induction ts with
  | nil => intro i cur _; simp [pubTrace]
  | cons t rest ih =>
    intro i cur hall
    obtain ⟨d, hg⟩ := Option.isSome_iff_exists.mp (hall t (List.mem_cons_self t rest))
    rw [pubTrace_cons_some gen cfg t rest i cur d hg]
    simp only [List.map_cons, List.length_cons]
    rw [ih (i + 1) _ (fun l hl => hall l (List.mem_cons_of_mem t hl))]
    rw [List.range'_succ]

theorem progressCurAux_allSuccess (gen : Gen) (cfg : AIConfig) :
    ∀ (ts : List LinkItem) (i acc : Nat),
    (∀ l ∈ ts, (gen l.title l.url cfg).isSome = true) → ts ≠ [] →
    progressCurAux gen cfg ts i acc = i + ts.length := by
  intro ts
  induction ts with
  | nil => intro i acc _ hne; exact absurd rfl hne
  | cons t rest ih =>
    intro i acc hall _
    obtain ⟨d, hg⟩ := Option.isSome_iff_exists.mp (hall t (List.mem_cons_self t rest))
    have h1 : progressCurAux gen cfg (t :: rest) i acc
        = progressCurAux gen cfg rest (i + 1) (i + 1) := by
      simp [progressCurAux, hg]
    rw [h1]
    cases hrest : rest with
    | nil => simp [progressCurAux]
    | cons v vs =>
      rw [hrest] at ih hall
      rw [ih (i + 1) (i + 1) (fun l hl => hall l (List.mem_cons_of_mem t hl)) (by simp)]
      simp only [List.length_cons]
      omega

theorem handleBulkGenerate_run (gen : Gen) (cfg : AIConfig) (links : List LinkItem)
    (stopAt : Option Nat) (hkey : cfg.apiKey ≠ "") (hmiss : missingLinks links ≠ []) :
    handleBulkGenerate gen cfg links true stopAt =
      { notice := none, started := true,
        run := bulkLoop gen cfg stopAt (missingLinks links).length (missingLinks links) 0
          { currentLinks := links, progress := (0, (missingLinks links).length),
            published := [], calls := [] } } := by
  unfold handleBulkGenerate
  have h1 : (cfg.apiKey == "") = false := by
    simp [hkey]
  have h2 : (missingLinks links).isEmpty = false := by
    cases hm : missingLinks links with
    | nil => exact absurd hm hmiss
    | cons a l => rfl
  simp [h1, h2]

theorem handleBulkGenerate_run_eq (gen : Gen) (cfg : AIConfig) (links : List LinkItem)
    (stopAt : Option Nat) (hkey : cfg.apiKey ≠ "") (hmiss : missingLinks links ≠ []) :
    (handleBulkGenerate gen cfg links true stopAt).run
      = bulkLoop gen cfg stopAt (missingLinks links).length (missingLinks links) 0
        { currentLinks := links, progress := (0, (missingLinks links).length),
          published := [], calls := [] } := by
  rw [handleBulkGenerate_run gen cfg links stopAt hkey hmiss]

theorem handleBulkGenerate_reject_key (gen : Gen) (cfg : AIConfig) (links : List LinkItem)
    (confirmed : Bool) (stopAt : Option Nat) (hk : cfg.apiKey = "") :
    handleBulkGenerate gen cfg links confirmed stopAt
      = { notice := some .missingApiKey, started := false, run := initRun links } := by
  unfold handleBulkGenerate
  simp [hk]

theorem handleBulkGenerate_reject_empty (gen : Gen) (cfg : AIConfig) (links : List LinkItem)
    (confirmed : Bool) (stopAt : Option Nat) (hk : cfg.apiKey ≠ "")
    (hm : missingLinks links = []) :
    handleBulkGenerate gen cfg links confirmed stopAt
      = { notice := some .noMissingDescriptions, started := false, run := initRun links } := by
  unfold handleBulkGenerate
  have h1 : (cfg.apiKey == "") = false := by simp [hk]
  simp [h1, hm]

theorem handleBulkGenerate_not_confirmed (gen : Gen) (cfg : AIConfig) (links : List LinkItem)
    (stopAt : Option Nat) (hk : cfg.apiKey ≠ "") (hm : missingLinks links ≠ []) :
    handleBulkGenerate gen cfg links false stopAt
      = { notice := none, started := false, run := initRun links } := by
  unfold handleBulkGenerate
  have h1 : (cfg.apiKey == "") = false := by simp [hk]
  have h2 : (missingLinks links).isEmpty = false := by
    cases hmm : missingLinks links with
    | nil => exact absurd hmm hm
    | cons a l => rfl
  simp [h1, h2]

theorem handleBulkGenerate_calls (gen : Gen) (cfg : AIConfig) (links : List LinkItem)
    (stopAt : Option Nat) (hkey : cfg.apiKey ≠ "") (hmiss : missingLinks links ≠ []) :
    (handleBulkGenerate gen cfg links true stopAt).run.calls
      = ((missingLinks links).take
          (attemptedCount stopAt 0 (missingLinks links).length)).map (mkCall cfg) := by
  rw [handleBulkGenerate_run_eq gen cfg links stopAt hkey hmiss, bulkLoop_stop_take,
    bulkLoop_none_calls]
  simp

theorem handleBulkGenerate_published (gen : Gen) (cfg : AIConfig) (links : List LinkItem)
    (stopAt : Option Nat) (hkey : cfg.apiKey ≠ "") (hmiss : missingLinks links ≠ []) :
    (handleBulkGenerate gen cfg links true stopAt).run.published
      = pubTrace gen cfg
          ((missingLinks links).take (attemptedCount stopAt 0 (missingLinks links).length))
          0 links := by
  rw [handleBulkGenerate_run_eq gen cfg links stopAt hkey hmiss, bulkLoop_stop_take,
    bulkLoop_none_published]
  simp

theorem handleBulkGenerate_currentLinks (gen : Gen) (cfg : AIConfig) (links : List LinkItem)
    (stopAt : Option Nat) (hkey : cfg.apiKey ≠ "") (hmiss : missingLinks links ≠ []) :
    (handleBulkGenerate gen cfg links true stopAt).run.currentLinks
      = links.map (finalItem gen cfg
          ((missingLinks links).take (attemptedCount stopAt 0 (missingLinks links).length))) := by
  rw [handleBulkGenerate_run_eq gen cfg links stopAt hkey hmiss, bulkLoop_stop_take,
    bulkLoop_none_currentLinks, applyResults_map]

theorem handleBulkGenerate_progress (gen : Gen) (cfg : AIConfig) (links : List LinkItem)
    (stopAt : Option Nat) (hkey : cfg.apiKey ≠ "") (hmiss : missingLinks links ≠ []) :
    (handleBulkGenerate gen cfg links true stopAt).run.progress
      = (progressCurAux gen cfg
          ((missingLinks links).take (attemptedCount stopAt 0 (missingLinks links).length))
          0 0,
         (missingLinks links).length) := by
  rw [handleBulkGenerate_run_eq gen cfg links stopAt hkey hmiss, bulkLoop_stop_take,
    bulkLoop_none_progress gen cfg (missingLinks links).length _ 0 _ 0 rfl]

theorem missing_ids_nodup (links : List LinkItem) (hnd : (links.map LinkItem.id).Nodup) :
    ((missingLinks links).map LinkItem.id).Nodup := by
  exact List.Nodup.sublist (List.Sublist.map LinkItem.id (List.filter_sublist links)) hnd

theorem take_drop_ids_ne (ts : List LinkItem) (m : Nat) (hnd : (ts.map LinkItem.id).Nodup) :
    ∀ t ∈ ts.drop m, ∀ v ∈ ts.take m, t.id ≠ v.id := by
  intro t ht v hv he
  have hsplit : ts.map LinkItem.id
      = (ts.take m).map LinkItem.id ++ (ts.drop m).map LinkItem.id := by
    rw [← List.map_append, List.take_append_drop]
  rw [hsplit] at hnd
  have hdis := (List.nodup_append.mp hnd).2.2
  exact hdis (List.mem_map_of_mem LinkItem.id hv) (he ▸ List.mem_map_of_mem LinkItem.id ht)

theorem pubTrace_snd_gt (gen : Gen) (cfg : AIConfig) :
    ∀ (ts : List LinkItem) (i : Nat) (cur : List LinkItem),
    ∀ x ∈ (pubTrace gen cfg ts i cur).map Prod.snd, i < x := by
  intro ts
  induction ts with
  | nil => intro i cur x hx; simp [pubTrace] at hx
  | cons t rest ih =>
    intro i cur x hx
    cases hg : gen t.title t.url cfg with
    | some d =>
      rw [pubTrace_cons_some gen cfg t rest i cur d hg] at hx
      simp only [List.map_cons, List.mem_cons] at hx
      rcases hx with rfl | hx
      · omega
      · have := ih (i + 1) _ x hx
        omega
    | none =>
      rw [pubTrace_cons_fail gen cfg t rest i cur hg] at hx
      have := ih (i + 1) cur x hx
      omega

theorem pubTrace_snd_pairwise (gen : Gen) (cfg : AIConfig) :
    ∀ (ts : List LinkItem) (i : Nat) (cur : List LinkItem),
    ((pubTrace gen cfg ts i cur).map Prod.snd).Pairwise (fun a b => a < b) := by
  intro ts
  induction ts with
  | nil => intro i cur; simp [pubTrace]
  | cons t rest ih =>
    intro i cur
    cases hg : gen t.title t.url cfg with
    | some d =>
      rw [pubTrace_cons_some gen cfg t rest i cur d hg]
      simp only [List.map_cons]
      exact List.Pairwise.cons
        (fun x hx => pubTrace_snd_gt gen cfg rest (i + 1) _ x hx) (ih (i + 1) _)
    | none =>
      rw [pubTrace_cons_fail gen cfg t rest i cur hg]
      exact ih (i + 1) cur

theorem handleBulkGenerate_published_keyMap (gen : Gen) (cfg : AIConfig)
    (links : List LinkItem) (confirmed : Bool) (stopAt : Option Nat) :
    ∀ p ∈ (handleBulkGenerate gen cfg links confirmed stopAt).run.published,
      keyMap p.1 = keyMap links := by
  intro p hp
  by_cases hk : cfg.apiKey = ""
  · rw [handleBulkGenerate_reject_key gen cfg links confirmed stopAt hk] at hp
    simp [initRun] at hp
  · by_cases hm : missingLinks links = []
    · rw [handleBulkGenerate_reject_empty gen cfg links confirmed stopAt hk hm] at hp
      simp [initRun] at hp
    · cases confirmed with
      | false =>
        rw [handleBulkGenerate_not_confirmed gen cfg links stopAt hk hm] at hp
        simp [initRun] at hp
      | true =>
        rw [handleBulkGenerate_published gen cfg links stopAt hk hm] at hp
        exact pubTrace_keyMap gen cfg _ 0 links p hp

theorem handleBulkGenerate_calls_cfg (gen : Gen) (cfg : AIConfig) (links : List LinkItem)
    (confirmed : Bool) (stopAt : Option Nat) :
    ∀ c ∈ (handleBulkGenerate gen cfg links confirmed stopAt).run.calls, c.2.2 = cfg := by
  intro c hc
  by_cases hk : cfg.apiKey = ""
  · rw [handleBulkGenerate_reject_key gen cfg links confirmed stopAt hk] at hc
    simp [initRun] at hc
  · by_cases hm : missingLinks links = []
    · rw [handleBulkGenerate_reject_empty gen cfg links confirmed stopAt hk hm] at hc
      simp [initRun] at hc
    · cases confirmed with
      | false =>
        rw [handleBulkGenerate_not_confirmed gen cfg links stopAt hk hm] at hc
        simp [initRun] at hc
      | true =>
        rw [handleBulkGenerate_calls gen cfg links stopAt hk hm] at hc
        obtain ⟨l, _, hcl⟩ := List.mem_map.mp hc
        rw [← hcl]
        rfl

/-! The claims. -/

/-- C1 as stated is false on the code: for target set [A, B] where B's
generation call throws, the final progress is not (2, 2) (setProgress is
only reached on the success path, so a failed attempt does not advance
progress.current). -/
theorem c1_counterexample :
    (handleBulkGenerate genEx cfgEx [linkA, linkB] true none).run.progress ≠ (2, 2) := by
  decide

/-- C1 (amended): during a bulk-generation run, progress.current is set to
i+1 only after a successful attempt at target index i; a failed attempt
leaves progress.current unchanged (progressCurAux is exactly that
recurrence over the attempted targets).  In particular, for target set
[A, B] where B's generation call throws, the final progress equals (1, 2). -/
theorem c1_progress_only_on_success (gen : Gen) (cfg : AIConfig) (links : List LinkItem)
    (stopAt : Option Nat) (hkey : cfg.apiKey ≠ "") (hmiss : missingLinks links ≠ []) :
    (handleBulkGenerate gen cfg links true stopAt).run.progress
      = (progressCurAux gen cfg
          ((missingLinks links).take (attemptedCount stopAt 0 (missingLinks links).length))
          0 0,
         (missingLinks links).length)
    ∧ (handleBulkGenerate genEx cfgEx [linkA, linkB] true none).run.progress = (1, 2) :=
  ⟨handleBulkGenerate_progress gen cfg links stopAt hkey hmiss, by decide⟩

/-- Witness for C1 (amended) at gen = genEx, cfg = cfgEx,
links = [linkA, linkB], no stop. -/
theorem c1_witness :
    (handleBulkGenerate genEx cfgEx [linkA, linkB] true none).run.progress
      = (progressCurAux genEx cfgEx
          ((missingLinks [linkA, linkB]).take
            (attemptedCount none 0 (missingLinks [linkA, linkB]).length))
          0 0,
         (missingLinks [linkA, linkB]).length)
    ∧ (handleBulkGenerate genEx cfgEx [linkA, linkB] true none).run.progress = (1, 2) :=
  c1_progress_only_on_success genEx cfgEx [linkA, linkB] none (by decide) (by decide)

/-- C2: with no stop and every generation call succeeding, the batch makes
exactly N publish calls (N the target-set size); the j-th publish carries
progress.current = j, the number of successful publishes so far (the snd
components of the publish trace are 1, 2, ..., N); final progress is
(N, N).  In general the number of publishes equals the number of
successful generation calls (a failed call publishes nothing), and in the
[A, B] example with B throwing the owner receives exactly one updateLinks
call. -/
theorem c2_all_success_run (gen : Gen) (cfg : AIConfig) (links : List LinkItem)
    (hkey : cfg.apiKey ≠ "") (hmiss : missingLinks links ≠ [])
    (hall : ∀ l ∈ missingLinks links, (gen l.title l.url cfg).isSome = true) :
    (handleBulkGenerate gen cfg links true none).run.published.length
        = (missingLinks links).length
    ∧ (handleBulkGenerate gen cfg links true none).run.published.map Prod.snd
        = List.range' 1 (missingLinks links).length
    ∧ (handleBulkGenerate gen cfg links true none).run.progress
        = ((missingLinks links).length, (missingLinks links).length)
    ∧ (∀ (gen2 : Gen),
        (handleBulkGenerate gen2 cfg links true none).run.published.length
          = (missingLinks links).countP (fun l => (gen2 l.title l.url cfg).isSome))
    ∧ (handleBulkGenerate genEx cfgEx [linkA, linkB] true none).run.published.length = 1 := by
  have htake : (missingLinks links).take
      (attemptedCount none 0 (missingLinks links).length) = missingLinks links := by
    simp [attemptedCount]
  refine ⟨?_, ?_, ?_, ?_, ?_⟩
  · rw [handleBulkGenerate_published gen cfg links none hkey hmiss, htake, pubTrace_length]
    exact List.countP_eq_length.mpr hall
  · rw [handleBulkGenerate_published gen cfg links none hkey hmiss, htake,
      pubTrace_snd_allSuccess gen cfg (missingLinks links) 0 links hall]
  · rw [handleBulkGenerate_progress gen cfg links none hkey hmiss, htake,
      progressCurAux_allSuccess gen cfg (missingLinks links) 0 0 hall hmiss]
    simp
  · intro gen2
    rw [handleBulkGenerate_published gen2 cfg links none hkey hmiss, htake, pubTrace_length]
  · decide

/-- Witness for C2 at gen = genAll (succeeds everywhere), cfg = cfgEx,
links = [linkA, linkB], no stop. -/
theorem c2_witness :
    (handleBulkGenerate genAll cfgEx [linkA, linkB] true none).run.published.length
        = (missingLinks [linkA, linkB]).length
    ∧ (handleBulkGenerate genAll cfgEx [linkA, linkB] true none).run.published.map Prod.snd
        = List.range' 1 (missingLinks [linkA, linkB]).length
    ∧ (handleBulkGenerate genAll cfgEx [linkA, linkB] true none).run.progress
        = ((missingLinks [linkA, linkB]).length, (missingLinks [linkA, linkB]).length)
    ∧ (∀ (gen2 : Gen),
        (handleBulkGenerate gen2 cfgEx [linkA, linkB] true none).run.published.length
          = (missingLinks [linkA, linkB]).countP (fun l => (gen2 l.title l.url cfgEx).isSome))
    ∧ (handleBulkGenerate genEx cfgEx [linkA, linkB] true none).run.published.length = 1 :=
  c2_all_success_run genAll cfgEx [linkA, linkB] (by decide) (by decide) (by decide)

/-- C4: with no stop, a generation failure for one target does not abort
the batch: every target in the snapshot is attempted (one call per target,
in order); the final working copy carries, for each target, the generated
description when its call succeeded and the unchanged (missing)
description when it failed; items that already had a description are left
untouched. -/
theorem c4_failure_not_abort (gen : Gen) (cfg : AIConfig) (links : List LinkItem)
    (hkey : cfg.apiKey ≠ "") (hmiss : missingLinks links ≠ [])
    (hnd : (links.map LinkItem.id).Nodup) :
    (handleBulkGenerate gen cfg links true none).run.calls
        = (missingLinks links).map (mkCall cfg)
    ∧ (handleBulkGenerate gen cfg links true none).run.currentLinks
        = links.map (finalItem gen cfg (missingLinks links))
    ∧ (∀ t ∈ missingLinks links,
        finalItem gen cfg (missingLinks links) t
          = (match gen t.title t.url cfg with
             | some d => { t with description := some d }
             | none => t))
    ∧ (∀ l ∈ links, descFalsy l = false → finalItem gen cfg (missingLinks links) l = l) := by
  have htake : (missingLinks links).take
      (attemptedCount none 0 (missingLinks links).length) = missingLinks links := by
    simp [attemptedCount]
  refine ⟨?_, ?_, ?_, ?_⟩
  · rw [handleBulkGenerate_calls gen cfg links none hkey hmiss, htake]
  · rw [handleBulkGenerate_currentLinks gen cfg links none hkey hmiss, htake]
  · exact finalItem_mem gen cfg (missingLinks links) (missing_ids_nodup links hnd)
  · intro l hl hdesc
    refine finalItem_of_forall_ne gen cfg (missingLinks links) l ?_
    intro t ht he
    have htl : t ∈ links := List.mem_of_mem_filter ht
    have ht2 : t ∈ links.filter (fun u => descFalsy u) := ht
    have hdt : descFalsy t = true := (List.mem_filter.mp ht2).2
    have hteq : t = l := List.inj_on_of_nodup_map hnd htl hl he.symm
    rw [hteq] at hdt
    rw [hdt] at hdesc
    cases hdesc

/-- Witness for C4 at gen = genEx (A succeeds, B fails), cfg = cfgEx,
links = [linkA, linkB]. -/
theorem c4_witness :
    (handleBulkGenerate genEx cfgEx [linkA, linkB] true none).run.calls
        = (missingLinks [linkA, linkB]).map (mkCall cfgEx)
    ∧ (handleBulkGenerate genEx cfgEx [linkA, linkB] true none).run.currentLinks
        = [linkA, linkB].map (finalItem genEx cfgEx (missingLinks [linkA, linkB]))
    ∧ (∀ t ∈ missingLinks [linkA, linkB],
        finalItem genEx cfgEx (missingLinks [linkA, linkB]) t
          = (match genEx t.title t.url cfgEx with
             | some d => { t with description := some d }
             | none => t))
    ∧ (∀ l ∈ [linkA, linkB], descFalsy l = false →
        finalItem genEx cfgEx (missingLinks [linkA, linkB]) l = l) :=
  c4_failure_not_abort genEx cfgEx [linkA, linkB] (by decide) (by decide) (by decide)

/-- C5: when the draft's API key is empty, or no item lacks a description,
handleBulkGenerate raises a notice and does not start: no generation call,
no publish, and the working copy equals the incoming collection; the
specific notice is the missing-key alert when the key is empty, and the
nothing-to-do alert when the key is present but the target set is empty. -/
theorem c5_precondition_reject (gen : Gen) (cfg : AIConfig) (links : List LinkItem)
    (confirmed : Bool) (stopAt : Option Nat)
    (h : cfg.apiKey = "" ∨ missingLinks links = []) :
    (handleBulkGenerate gen cfg links confirmed stopAt).notice.isSome = true
    ∧ (handleBulkGenerate gen cfg links confirmed stopAt).started = false
    ∧ (handleBulkGenerate gen cfg links confirmed stopAt).run.calls = []
    ∧ (handleBulkGenerate gen cfg links confirmed stopAt).run.published = []
    ∧ (handleBulkGenerate gen cfg links confirmed stopAt).run.currentLinks = links
    ∧ (cfg.apiKey = "" →
        (handleBulkGenerate gen cfg links confirmed stopAt).notice
          = some Notice.missingApiKey)
    ∧ (cfg.apiKey ≠ "" → missingLinks links = [] →
        (handleBulkGenerate gen cfg links confirmed stopAt).notice
          = some Notice.noMissingDescriptions) := by
  by_cases hk : cfg.apiKey = ""
  · rw [handleBulkGenerate_reject_key gen cfg links confirmed stopAt hk]
    exact ⟨rfl, rfl, rfl, rfl, rfl, fun _ => rfl, fun hne => absurd hk hne⟩
  · have hm : missingLinks links = [] := h.resolve_left hk
    rw [handleBulkGenerate_reject_empty gen cfg links confirmed stopAt hk hm]
    exact ⟨rfl, rfl, rfl, rfl, rfl, fun hkk => absurd hkk hk, fun _ _ => rfl⟩

/-- Witness for C5 at an empty API key. -/
theorem c5_witness :
    (handleBulkGenerate genAll cfgNoKey [linkA, linkB] true none).notice.isSome = true
    ∧ (handleBulkGenerate genAll cfgNoKey [linkA, linkB] true none).started = false
    ∧ (handleBulkGenerate genAll cfgNoKey [linkA, linkB] true none).run.calls = []
    ∧ (handleBulkGenerate genAll cfgNoKey [linkA, linkB] true none).run.published = []
    ∧ (handleBulkGenerate genAll cfgNoKey [linkA, linkB] true none).run.currentLinks
        = [linkA, linkB]
    ∧ (cfgNoKey.apiKey = "" →
        (handleBulkGenerate genAll cfgNoKey [linkA, linkB] true none).notice
          = some Notice.missingApiKey)
    ∧ (cfgNoKey.apiKey ≠ "" → missingLinks [linkA, linkB] = [] →
        (handleBulkGenerate genAll cfgNoKey [linkA, linkB] true none).notice
          = some Notice.noMissingDescriptions) :=
  c5_precondition_reject genAll cfgNoKey [linkA, linkB] true none (Or.inl rfl)

/-- C3: when the stop flag is first observed at check s with s ≤ k+1
(a stop issued after the k-th completed item is observed at check k, or at
check k+1 when it was raised while item k was in flight), the loop makes
at most k+1 generation calls; the targets beyond the stop point keep their
(missing) description in the final working copy; and handleStop clears the
processing flag at once while raising the stop flag. -/
theorem c3_stop_cooperative (gen : Gen) (cfg : AIConfig) (links : List LinkItem)
    (s k : Nat) (hkey : cfg.apiKey ≠ "") (hmiss : missingLinks links ≠ [])
    (hnd : (links.map LinkItem.id).Nodup) (hsk : s ≤ k + 1) :
    (handleBulkGenerate gen cfg links true (some s)).run.calls.length ≤ k + 1
    ∧ (∀ t ∈ (missingLinks links).drop (min s (missingLinks links).length),
        finalItem gen cfg
          ((missingLinks links).take (min s (missingLinks links).length)) t = t)
    ∧ (handleBulkGenerate gen cfg links true (some s)).run.currentLinks
        = links.map (finalItem gen cfg
            ((missingLinks links).take (min s (missingLinks links).length)))
    ∧ (∀ st : ModalState,
        (handleStop st).isProcessing = false ∧ (handleStop st).shouldStop = true) := by
  have hac : attemptedCount (some s) 0 (missingLinks links).length
      = min s (missingLinks links).length := by
    simp [attemptedCount]
  refine ⟨?_, ?_, ?_, ?_⟩
  · rw [handleBulkGenerate_calls gen cfg links (some s) hkey hmiss, hac,
      List.length_map, List.length_take]
    omega
  · intro t ht
    refine finalItem_of_forall_ne gen cfg _ t ?_
    intro v hv
    exact take_drop_ids_ne (missingLinks links) (min s (missingLinks links).length)
      (missing_ids_nodup links hnd) t ht v hv
  · rw [handleBulkGenerate_currentLinks gen cfg links (some s) hkey hmiss, hac]
  · intro st
    exact ⟨rfl, rfl⟩

/-- Witness for C3 at gen = genAll, links = [linkA, linkB], stop first
observed at check 1 (k = 0). -/
theorem c3_witness :
    (handleBulkGenerate genAll cfgEx [linkA, linkB] true (some 1)).run.calls.length ≤ 0 + 1
    ∧ (∀ t ∈ (missingLinks [linkA, linkB]).drop
          (min 1 (missingLinks [linkA, linkB]).length),
        finalItem genAll cfgEx
          ((missingLinks [linkA, linkB]).take
            (min 1 (missingLinks [linkA, linkB]).length)) t = t)
    ∧ (handleBulkGenerate genAll cfgEx [linkA, linkB] true (some 1)).run.currentLinks
        = [linkA, linkB].map (finalItem genAll cfgEx
            ((missingLinks [linkA, linkB]).take
              (min 1 (missingLinks [linkA, linkB]).length)))
    ∧ (∀ st : ModalState,
        (handleStop st).isProcessing = false ∧ (handleStop st).shouldStop = true) :=
  c3_stop_cooperative genAll cfgEx [linkA, linkB] 1 0 (by decide) (by decide)
    (by decide) (by decide)

/-- C6: the calls trace is the order-preserving prefix of the target
snapshot fixed by the stop point, one call per attempted target in the
snapshot's original order; the publish trace is pubTrace over that same
prefix — one publish per successful attempt, in that order, with strictly
increasing progress indices — and its length is the number of successful
calls. -/
theorem c6_order (gen : Gen) (cfg : AIConfig) (links : List LinkItem) (stopAt : Option Nat)
    (hkey : cfg.apiKey ≠ "") (hmiss : missingLinks links ≠ []) :
    (handleBulkGenerate gen cfg links true stopAt).run.calls
        = ((missingLinks links).take
            (attemptedCount stopAt 0 (missingLinks links).length)).map (mkCall cfg)
    ∧ (handleBulkGenerate gen cfg links true stopAt).run.published
        = pubTrace gen cfg
            ((missingLinks links).take
              (attemptedCount stopAt 0 (missingLinks links).length)) 0 links
    ∧ ((handleBulkGenerate gen cfg links true stopAt).run.published.map Prod.snd).Pairwise
        (fun a b => a < b)
    ∧ (handleBulkGenerate gen cfg links true stopAt).run.published.length
        = ((missingLinks links).take
            (attemptedCount stopAt 0 (missingLinks links).length)).countP
            (fun l => (gen l.title l.url cfg).isSome) := by
  refine ⟨handleBulkGenerate_calls gen cfg links stopAt hkey hmiss,
    handleBulkGenerate_published gen cfg links stopAt hkey hmiss, ?_, ?_⟩
  · rw [handleBulkGenerate_published gen cfg links stopAt hkey hmiss]
    exact pubTrace_snd_pairwise gen cfg _ 0 links
  · rw [handleBulkGenerate_published gen cfg links stopAt hkey hmiss, pubTrace_length]

/-- Witness for C6 at gen = genEx, links = [linkA, linkB], no stop. -/
theorem c6_witness :
    (handleBulkGenerate genEx cfgEx [linkA, linkB] true none).run.calls
        = ((missingLinks [linkA, linkB]).take
            (attemptedCount none 0 (missingLinks [linkA, linkB]).length)).map (mkCall cfgEx)
    ∧ (handleBulkGenerate genEx cfgEx [linkA, linkB] true none).run.published
        = pubTrace genEx cfgEx
            ((missingLinks [linkA, linkB]).take
              (attemptedCount none 0 (missingLinks [linkA, linkB]).length)) 0 [linkA, linkB]
    ∧ ((handleBulkGenerate genEx cfgEx [linkA, linkB] true none).run.published.map
        Prod.snd).Pairwise (fun a b => a < b)
    ∧ (handleBulkGenerate genEx cfgEx [linkA, linkB] true none).run.published.length
        = ((missingLinks [linkA, linkB]).take
            (attemptedCount none 0 (missingLinks [linkA, linkB]).length)).countP
            (fun l => (genEx l.title l.url cfgEx).isSome) :=
  c6_order genEx cfgEx [linkA, linkB] none (by decide) (by decide)

/-- C7: saving hands the dialog's draft to the owner exactly once and
closes; the cancel path closes without calling save or updateLinks; and
opening re-initializes the draft from the owner's config, so edits made
before a close-without-save are discarded. -/
theorem c7_save_cancel (s s2 : ModalState) (cfg : AIConfig) :
    (handleSave s).savedConfigs = [s.localConfig]
    ∧ (handleSave s).closed = true
    ∧ (handleSave s).updates = []
    ∧ handleCancel.savedConfigs = []
    ∧ handleCancel.updates = []
    ∧ handleCancel.closed = true
    ∧ (openModal cfg s2).localConfig = cfg :=
  ⟨rfl, rfl, rfl, rfl, rfl, rfl, rfl⟩

/-- C8: the field setter writes exactly the named field and preserves
every other field of the draft. -/
theorem c8_field_setter_frame (k k2 : ConfigKey) (v : String) (c : AIConfig) :
    getField k (handleChange k v c) = v
    ∧ (k2 ≠ k → getField k2 (handleChange k v c) = getField k2 c) := by
  cases k <;> cases k2 <;> refine ⟨rfl, fun h => ?_⟩ <;>
    first
    | exact absurd rfl h
    | rfl

/-- Witness for C8: setting apiKey leaves provider unchanged. -/
theorem c8_witness :
    getField ConfigKey.provider (handleChange ConfigKey.apiKey "x" cfgEx)
      = getField ConfigKey.provider cfgEx :=
  (c8_field_setter_frame ConfigKey.apiKey ConfigKey.provider "x" cfgEx).2 (by decide)

/-- C9: the per-item update touches only id-matching items, and only their
description field: a position holding an item whose id differs from the
target is returned unchanged; the matching position changes only its
description; the id/title/url projection and the length are preserved by
the update; and every collection a run publishes keeps the snapshot's
length, ids, titles, urls and order. -/
theorem c9_update_frame :
    (∀ (ls : List LinkItem) (tid : Nat) (d : String) (j : Nat) (l : LinkItem),
      ls[j]? = some l → l.id ≠ tid → (applyDesc ls tid d)[j]? = some l)
    ∧ (∀ (ls : List LinkItem) (tid : Nat) (d : String) (j : Nat) (l : LinkItem),
      ls[j]? = some l → l.id = tid →
        (applyDesc ls tid d)[j]? = some { l with description := some d })
    ∧ (∀ (ls : List LinkItem) (tid : Nat) (d : String),
        keyMap (applyDesc ls tid d) = keyMap ls
        ∧ (applyDesc ls tid d).length = ls.length)
    ∧ (∀ (gen : Gen) (cfg : AIConfig) (links : List LinkItem) (confirmed : Bool)
        (stopAt : Option Nat),
        ∀ p ∈ (handleBulkGenerate gen cfg links confirmed stopAt).run.published,
          keyMap p.1 = keyMap links ∧ p.1.length = links.length) := by
  refine ⟨?_, ?_, ?_, ?_⟩
  · intro ls tid d j l hj hne
    unfold applyDesc
    rw [List.getElem?_map, hj]
    simp [hne]
  · intro ls tid d j l hj heq
    unfold applyDesc
    rw [List.getElem?_map, hj]
    simp [heq]
  · intro ls tid d
    exact ⟨applyDesc_keyMap ls tid d, by simp [applyDesc]⟩
  · intro gen cfg links confirmed stopAt p hp
    have hk := handleBulkGenerate_published_keyMap gen cfg links confirmed stopAt p hp
    refine ⟨hk, ?_⟩
    have hlen := congrArg List.length hk
    simpa [keyMap] using hlen

/-- Witness for C9: the update of [linkA, linkB] at id 1 leaves position 0
(linkA, a different id) untouched. -/
theorem c9_witness :
    (applyDesc [linkA, linkB] 1 "d")[0]? = some linkA :=
  c9_update_frame.1 [linkA, linkB] 1 "d" 0 linkA (by decide) (by decide)

/-- C10: the batch reads the unsaved local draft, not the owner-committed
config: every generation call of a run over the post-edit draft carries
that draft; the missing-key rejection is decided by the draft's apiKey;
and with an owner config lacking a key, an apiKey edit made since open —
never saved — lets the batch start. -/
theorem c10_uses_draft (gen : Gen) (ownerConfig : AIConfig) (s : ModalState)
    (edits : List (ConfigKey × String)) (links : List LinkItem) (confirmed : Bool)
    (stopAt : Option Nat) :
    (∀ c ∈ (handleBulkGenerate gen (draftAfter ownerConfig s edits) links
        confirmed stopAt).run.calls, c.2.2 = draftAfter ownerConfig s edits)
    ∧ ((handleBulkGenerate gen (draftAfter ownerConfig s edits) links
        confirmed stopAt).notice = some Notice.missingApiKey
       ↔ (draftAfter ownerConfig s edits).apiKey = "")
    ∧ (handleBulkGenerate genAll
        (draftAfter cfgNoKey stEx [(ConfigKey.apiKey, "k")]) [linkA] true none).started
        = true := by
  refine ⟨handleBulkGenerate_calls_cfg gen _ links confirmed stopAt, ?_, by decide⟩
  constructor
  · intro hn
    by_cases hk : (draftAfter ownerConfig s edits).apiKey = ""
    · exact hk
    · exfalso
      by_cases hm : missingLinks links = []
      · rw [handleBulkGenerate_reject_empty gen _ links confirmed stopAt hk hm] at hn
        simp at hn
      · cases confirmed with
        | false =>
          rw [handleBulkGenerate_not_confirmed gen _ links stopAt hk hm] at hn
          simp at hn
        | true =>
          rw [handleBulkGenerate_run gen _ links stopAt hk hm] at hn
          simp at hn
  · intro hk
    rw [handleBulkGenerate_reject_key gen _ links confirmed stopAt hk]

/-- Witness for C10: the one call of the post-edit run carries the edited
draft. -/
theorem c10_witness :
    ("A", "a", draftAfter cfgNoKey stEx [(ConfigKey.apiKey, "k")]).2.2
      = draftAfter cfgNoKey stEx [(ConfigKey.apiKey, "k")] :=
  (c10_uses_draft genAll cfgNoKey stEx [(ConfigKey.apiKey, "k")] [linkA] true none).1
    ("A", "a", draftAfter cfgNoKey stEx [(ConfigKey.apiKey, "k")]) (by decide)

end CloudNav
